import Mathlib

/-!
Shallow embedding of the plugin registry and dynamic-loading subsystem of
`local-compute` (files `src/core/manager/cfm.rs`, `src/core/types/*`,
`src/functions/*`), together with proofs of the specified properties.

Modelling conventions:
* `HashMap<String, Box<dyn ComputeFunction>>` is an association list with
  HashMap semantics (`tableLookup`, `tableInsert` replaces an existing key,
  `tableRemove`), plus the key-uniqueness invariant `nodupKeys`.
* A `Box<dyn ComputeFunction>` is a `ComputeFunction` record holding the
  instance's name and its `receive_request` behaviour; the optional hooks
  `on_plugin_load` / `on_plugin_unload` default to no-ops, so only the fact
  that the manager fired them is observable — the manager operations emit a
  `HookEvent` trace recording each hook call, each table registration and
  each handler invocation.
* The filesystem / dynamic-linker environment consumed by `load_plugin`
  (`std::fs::try_exists`, `libloading::Library::new`, symbol resolution,
  the `_plugin_create` call) is passed in as a `LoadEnv` value describing
  the outcome of each of those external effects.
* Async suspension is irrelevant to the sequential results, which are
  modelled as pure state transformers; the lock discipline of
  `push_request` is modelled separately for the concurrency property.
-/

namespace LocalCompute

/-- JSON-like payload values (`serde_json::Value`). -/
inductive JsonValue where
  | null
  | bool (b : Bool)
  | num (n : Int)
  | str (s : String)
  | arr (elems : List JsonValue)
  | obj (fields : List (String × JsonValue))

/-- `serde_json::Value::is_string`. -/
def JsonValue.isString : JsonValue → Bool
  | .str _ => true
  | _ => false

/-- `serde_json::Value::is_object`. -/
def JsonValue.isObject : JsonValue → Bool
  | .obj _ => true
  | _ => false

/-- `serde_json::Value::as_str`. -/
def JsonValue.asStr : JsonValue → Option String
  | .str s => some s
  | _ => none

/-- `serde_json::Value::as_object`. -/
def JsonValue.asObj : JsonValue → Option (List (String × JsonValue))
  | .obj fields => some fields
  | _ => none

/-- The transport-agnostic status classes of `src/core/types/status.rs`. -/
inductive GenericStatusCode where
  | Ok
  | NotFound
  | BadRequest
  | InternalError
  | Conflict
  | PreconditionFailed
  | Other (code : Nat)
  | Unknown
deriving DecidableEq

/-- `TargetComputeFunc` of `src/core/types/req.rs`: a newtype over the target name. -/
structure TargetComputeFunc where
  name : String
deriving DecidableEq

/-- `ComputeRequest` of `src/core/types/req.rs`. -/
structure ComputeRequest where
  target : TargetComputeFunc
  data : JsonValue

/-- `ComputeJsonResponse` of `src/core/types/resp.rs`. -/
structure ComputeJsonResponse where
  status : GenericStatusCode
  data : JsonValue

/-- `ComputeResponse` of `src/core/types/resp.rs`. -/
inductive ComputeResponse where
  | NoContent (status : GenericStatusCode)
  | Json (resp : ComputeJsonResponse)

/-- `ComputeResponse::ok()`. -/
def ComputeResponse.ok : ComputeResponse :=
  .NoContent .Ok

/-- `BadRequestError` as defined in `src/core/types/error/mod.rs` (the version in
the module tree; the dead duplicate in `error/bad_req.rs` wraps the request in an
`Option` instead). -/
structure BadRequestError where
  sender : String
  message : String
  request : ComputeRequest

/-- Modelled from the spec: `AddFunctionRequest` is referenced by
`src/core/types/input.rs` but its defining file is not under `src`; per §6 the
load request is an absolute file-system path string. -/
structure AddFunctionRequest where
  path : String

/-- Modelled from the spec: `RemoveFunctionRequest` is referenced by
`src/core/types/input.rs` but its defining file is not under `src`; per §6 the
unload request carries the target name. -/
structure RemoveFunctionRequest where
  target : TargetComputeFunc

/-- `AppInput` of `src/core/types/input.rs`. -/
inductive AppInput where
  | AddComputeFunction (req : AddFunctionRequest)
  | RemoveComputeFunction (req : RemoveFunctionRequest)
  | Execute (req : ComputeRequest)

/-- `BadInputError` of `src/core/types/error/mod.rs`. -/
structure BadInputError where
  message : String
  input : AppInput

/-- `LoadingError` of `src/core/types/error/mod.rs`. -/
inductive LoadingError where
  | BadPath (msg : String)
  | PathNotFound (msg : String)
  | LibraryLoadFailure (msg : String)
  | ConstructorLoadFailure (msg : String)
  | ConstructorCallFailure
  | FunctionNameCollision (name : String)
deriving DecidableEq

/-- `LoadingError::bad_path`. -/
def LoadingError.bad_path (msg : String) : LoadingError :=
  .BadPath msg

/-- `LoadingError::path_not_found`. -/
def LoadingError.path_not_found (msg : String) : LoadingError :=
  .PathNotFound msg

/-- `LoadingError::lib_load_failure`. -/
def LoadingError.lib_load_failure (msg : String) : LoadingError :=
  .LibraryLoadFailure msg

/-- `LoadingError::ctor_load_failure`. -/
def LoadingError.ctor_load_failure (msg : String) : LoadingError :=
  .ConstructorLoadFailure msg

/-- `LoadingError::ctor_call_failure`. -/
def LoadingError.ctor_call_failure : LoadingError :=
  .ConstructorCallFailure

/-- `LoadingError::name_collision`. -/
def LoadingError.name_collision (name : String) : LoadingError :=
  .FunctionNameCollision name

/-- `UnloadingError` of `src/core/types/error/mod.rs`. -/
inductive UnloadingError where
  | TargetNotFound (target : TargetComputeFunc)
  | UnableToUnload (msg : String)
deriving DecidableEq

/-- `AppError` of `src/core/types/error/mod.rs`. -/
inductive AppError where
  | BadInput (err : BadInputError)
  | BadRequest (err : BadRequestError)
  | TargetNotFound (target : TargetComputeFunc)
  | Loading (err : LoadingError)
  | Unloading (err : UnloadingError)
  | Other (msg : String)
  | None

/-- `AppError::as_generic_status_code` (`src/core/types/error/mod.rs:166-182`). -/
def AppError.as_generic_status_code : AppError → GenericStatusCode
  | .BadInput _ | .BadRequest _ => .BadRequest
  | .Unloading un =>
    match un with
    | .TargetNotFound _ => .NotFound
    | .UnableToUnload _ => .InternalError
  | .Loading load =>
    match load with
    | .FunctionNameCollision _ => .Conflict
    | .BadPath _ => .PreconditionFailed
    | .PathNotFound _ => .NotFound
    | _ => .InternalError
  | .TargetNotFound _ => .NotFound
  | .Other _ | .None => .InternalError

/-- A `Box<dyn ComputeFunction>` (trait in `src/core/types/func.rs`): the
instance's stable name and its `receive_request` behaviour. The optional hooks
`on_plugin_load` / `on_plugin_unload` are no-ops by default and observable only
through the manager's hook-event trace. -/
structure ComputeFunction where
  name : String
  receive_request : ComputeRequest → Except BadRequestError ComputeResponse

/-- Return-value behaviour of `Logger::receive_request` (`src/functions/logger.rs`).
The emitted log line and its timestamp are `tracing` side effects that do not
influence the returned value, which depends only on the shape of the data. -/
def Logger.receive_request (request : ComputeRequest) : Except BadRequestError ComputeResponse :=
  let data := request.data
  let is_str := data.isString
  let is_obj := data.isObject
  if !is_str && !is_obj then
    Except.error ⟨"logger", "Data must be an object or string", request⟩
  else if is_str then
    match data.asStr with
    | some _ => Except.ok ComputeResponse.ok
    | none =>
      Except.error
        ⟨"logger", "Unable to convert data (which returned true for is_string) to a string",
          request⟩
  else
    match data.asObj with
    | some _ => Except.ok ComputeResponse.ok
    | none =>
      Except.error
        ⟨"logger", "Unable to convert data (which returned true for is_object) to a object",
          request⟩

/-- The `Logger` built-in as a `ComputeFunction` instance (its `name()` is `"logger"`). -/
def loggerFunction : ComputeFunction :=
  { name := "logger", receive_request := Logger.receive_request }

/-- `BuiltinFunction` of `src/functions/mod.rs`. -/
inductive BuiltinFunction where
  | Logger
deriving DecidableEq

/-- `BuiltinFunction::create`. -/
def BuiltinFunction.create : BuiltinFunction → ComputeFunction
  | .Logger => loggerFunction

/-- `BuiltinFunctionList` of `src/functions/mod.rs`: a `HashSet<BuiltinFunction>`,
modelled as a duplicate-free list. -/
structure BuiltinFunctionList where
  set : List BuiltinFunction

/-- `BuiltinFunctionList::contains`. -/
def BuiltinFunctionList.contains (l : BuiltinFunctionList) (f : BuiltinFunction) : Bool :=
  l.set.contains f

/-- `BuiltinFunctionList::add`: `HashSet::insert` returns whether the value was
newly inserted. -/
def BuiltinFunctionList.add (l : BuiltinFunctionList) (f : BuiltinFunction) :
    Bool × BuiltinFunctionList :=
  if l.contains f then (false, l) else (true, ⟨f :: l.set⟩)

/-- A `libloading::Library` handle, opaque to the registry. -/
structure Library where
  libId : Nat
deriving DecidableEq

/-- The function table: `HashMap<String, Box<dyn ComputeFunction>>` as an
association list. -/
abbrev FuncTable := List (String × ComputeFunction)

/-- `HashMap::get`. -/
def tableLookup : FuncTable → String → Option ComputeFunction
  | [], _ => none
  | (k0, v0) :: rest, k => if k0 = k then some v0 else tableLookup rest k

/-- `HashMap::contains_key`. -/
def tableContains (t : FuncTable) (k : String) : Bool :=
  (tableLookup t k).isSome

/-- `HashMap::insert`: replaces the value of an existing key, else appends. -/
def tableInsert : FuncTable → String → ComputeFunction → FuncTable
  | [], k, v => [(k, v)]
  | (k0, v0) :: rest, k, v =>
    if k0 = k then (k, v) :: rest else (k0, v0) :: tableInsert rest k v

/-- `HashMap::remove` (under `nodupKeys`, removing the first match removes the
only match). -/
def tableRemove : FuncTable → String → FuncTable
  | [], _ => []
  | (k0, v0) :: rest, k =>
    if k0 = k then rest else (k0, v0) :: tableRemove rest k

/-- The keys of the table. -/
def tableKeys (t : FuncTable) : List String :=
  t.map Prod.fst

/-- Key uniqueness: each name maps to at most one instance. -/
def nodupKeys (t : FuncTable) : Prop :=
  (tableKeys t).Nodup

/-- Number of entries stored under a given name. -/
def countKey (t : FuncTable) (k : String) : Nat :=
  (t.filter fun kv => kv.1 = k).length

/-- Observable events emitted by the manager: hook calls, table registrations,
handler invocations. -/
inductive HookEvent where
  | onLoad (name : String)
  | onUnload (name : String)
  | registered (name : String)
  | invoked (name : String)
deriving DecidableEq

/-- Whether a trace contains any `on_plugin_load` call. -/
def hasOnLoad : List HookEvent → Bool
  | [] => false
  | .onLoad _ :: _ => true
  | _ :: rest => hasOnLoad rest

/-- The registry state of `ComputeFunctionManager` (`src/core/manager/cfm.rs`):
function table, loaded-library collection, built-in tracking set. -/
structure ComputeFunctionManager where
  functions : FuncTable
  loaded_libraries : List Library
  builtins : BuiltinFunctionList

/-- `ComputeFunctionManager::new`. -/
def ComputeFunctionManager.new : ComputeFunctionManager :=
  { functions := [], loaded_libraries := [], builtins := ⟨[]⟩ }

/-- Outcome of `std::fs::try_exists`. -/
inductive ExistsCheck where
  | found
  | missing
  | ioError (msg : String)
deriving DecidableEq

/-- Outcomes of the external effects consumed by `load_plugin`: the existence
check, `libloading::Library::new`, resolution of the `_plugin_create` symbol,
and the constructor call (`none` models a returned null pointer). -/
structure LoadEnv where
  pathExists : ExistsCheck
  openLib : Except String Library
  getCtor : Except String Unit
  ctorResult : Option ComputeFunction

/-- `Path::is_absolute` for Unix paths: the path begins with the root separator.
Implemented on the character list so that concrete paths evaluate by reduction. -/
def path_is_absolute (p : String) : Bool :=
  match p.toList with
  | [] => false
  | c :: _ => c = '/'

/-- `ComputeFunctionManager::load_builtin_function` (`cfm.rs:80-95`). Note that
the built-in path inserts the instance without calling `on_plugin_load`. -/
def load_builtin_function (s : ComputeFunctionManager) (kind : BuiltinFunction) :
    Except LoadingError Bool × ComputeFunctionManager × List HookEvent :=
  match s.builtins.add kind with
  | (false, _) => (Except.ok false, s, [])
  | (true, builtins2) =>
    let func := kind.create
    (Except.ok true,
      { s with
        builtins := builtins2
        functions := tableInsert s.functions func.name func },
      [HookEvent.registered func.name])

/-- `ComputeFunctionManager::load_plugin` (`cfm.rs:124-205`), with the external
effects supplied by `env`. The opened library handle is pushed into
`loaded_libraries` before the constructor symbol is resolved, before the
constructor is called and before the collision check, exactly as in the source. -/
def load_plugin (s : ComputeFunctionManager) (env : LoadEnv) (library_path : String) :
    Except LoadingError Unit × ComputeFunctionManager × List HookEvent :=
  if !path_is_absolute library_path then
    (Except.error (LoadingError.bad_path ("Path `" ++ library_path ++ "` is not absolute.")),
      s, [])
  else
    match env.pathExists with
    | .missing =>
      (Except.error (LoadingError.path_not_found
          ("Path `" ++ library_path ++ "` does not exist.")), s, [])
    | .ioError e =>
      (Except.error (LoadingError.bad_path
          ("Could not verify the existence of `" ++ library_path ++
            "`, either due to errors or lack of permissions. Os error: " ++ e)), s, [])
    | .found =>
      match env.openLib with
      | .error err => (Except.error (LoadingError.lib_load_failure err), s, [])
      | .ok lib =>
        match env.getCtor with
        | .error err =>
          (Except.error (LoadingError.ctor_load_failure err),
            { s with loaded_libraries := s.loaded_libraries ++ [lib] }, [])
        | .ok _ =>
          match env.ctorResult with
          | none =>
            (Except.error LoadingError.ctor_call_failure,
              { s with loaded_libraries := s.loaded_libraries ++ [lib] }, [])
          | some plugin =>
            if tableContains s.functions plugin.name then
              (Except.error (LoadingError.name_collision plugin.name),
                { s with loaded_libraries := s.loaded_libraries ++ [lib] }, [])
            else
              (Except.ok (),
                { s with
                  loaded_libraries := s.loaded_libraries ++ [lib]
                  functions := tableInsert s.functions plugin.name plugin },
                [HookEvent.onLoad plugin.name, HookEvent.registered plugin.name])

/-- `ComputeFunctionManager::unload_plugin` (`cfm.rs:222-231`). -/
def unload_plugin (s : ComputeFunctionManager) (target : TargetComputeFunc) :
    Except UnloadingError Unit × ComputeFunctionManager × List HookEvent :=
  match tableLookup s.functions target.name with
  | none => (Except.error (UnloadingError.TargetNotFound target), s, [])
  | some plugin =>
    (Except.ok (),
      { s with functions := tableRemove s.functions target.name },
      [HookEvent.onUnload plugin.name])

/-- `ComputeFunctionManager::unload_all` (`cfm.rs:243-252`): drains the table,
firing `on_plugin_unload` for every instance, then drops every library handle. -/
def unload_all (s : ComputeFunctionManager) :
    ComputeFunctionManager × List HookEvent :=
  ({ functions := [], loaded_libraries := [], builtins := s.builtins },
    s.functions.map fun kv => HookEvent.onUnload kv.2.name)

/-- `ComputeFunctionManager::push_request` (`cfm.rs:274-286`): looks up the
target, invokes its handler, and maps a `BadRequestError` into `AppError` via
`Into` (`From<BadRequestError> for AppError` gives `AppError::BadRequest`). -/
def push_request (s : ComputeFunctionManager) (request : ComputeRequest) :
    Except AppError ComputeResponse × List HookEvent :=
  match tableLookup s.functions request.target.name with
  | some plugin =>
    (match plugin.receive_request request with
      | .ok resp => Except.ok resp
      | .error e => Except.error (AppError.BadRequest e),
      [HookEvent.invoked plugin.name])
  | none => (Except.error (AppError.TargetNotFound request.target), [])

/-- The manager's public operations, for reasoning over whole histories. -/
inductive Op where
  | loadPlugin (env : LoadEnv) (path : String)
  | loadBuiltin (kind : BuiltinFunction)
  | unloadPlugin (target : TargetComputeFunc)
  | pushRequest (request : ComputeRequest)
  | unloadAll

/-- One operation applied to a registry state, with its emitted events. -/
def step (s : ComputeFunctionManager) : Op → ComputeFunctionManager × List HookEvent
  | .loadPlugin env p => (load_plugin s env p).2
  | .loadBuiltin kind => (load_builtin_function s kind).2
  | .unloadPlugin target => (unload_plugin s target).2
  | .pushRequest request => (s, (push_request s request).2)
  | .unloadAll => unload_all s

/-- A whole history of operations, concatenating the event traces. -/
def run (s : ComputeFunctionManager) : List Op → ComputeFunctionManager × List HookEvent
  | [] => (s, [])
  | op :: ops =>
    let r := step s op
    let r2 := run r.1 ops
    (r2.1, r.2 ++ r2.2)

/-- Names registered so far, accumulated over a trace. -/
def regsAfter : List HookEvent → List String → List String
  | [], regs => regs
  | .onLoad _ :: rest, regs => regsAfter rest regs
  | .onUnload _ :: rest, regs => regsAfter rest regs
  | .registered n :: rest, regs => regsAfter rest (n :: regs)
  | .invoked _ :: rest, regs => regsAfter rest regs

/-- Checks that every `on_plugin_unload` call in the trace is for a name that was
registered earlier in the trace (given the initially registered names). -/
def unloadsCovered : List HookEvent → List String → Bool
  | [], _ => true
  | .onLoad _ :: rest, regs => unloadsCovered rest regs
  | .onUnload n :: rest, regs => regs.contains n && unloadsCovered rest regs
  | .registered n :: rest, regs => unloadsCovered rest (n :: regs)
  | .invoked _ :: rest, regs => unloadsCovered rest regs

/-! Model of the lock discipline of `push_request` (`cfm.rs:274-286`): the whole
function table sits behind a single `tokio::sync::Mutex`, and the guard obtained
by `self.functions.lock().await` is held across the await of
`plugin.receive_request` until it is dropped at the end of the function. Two
concurrent dispatch tasks are modelled; each follows the phases of one
`push_request` call, and the mutex owner gates lock acquisition. -/

/-- Phases of one `push_request` call. -/
inductive DispatchPhase where
  | start
  | acquired
  | running
  | done
deriving DecidableEq

/-- One in-flight dispatch: the request's target name and the task's phase. -/
structure DispatchTask where
  target : String
  phase : DispatchPhase
deriving DecidableEq

/-- Two concurrent dispatch tasks plus the owner of the function-table mutex. -/
structure DispatchSched where
  owner : Option Bool
  task0 : DispatchTask
  task1 : DispatchTask
deriving DecidableEq

/-- The task named by `i`. -/
def getTask (s : DispatchSched) (i : Bool) : DispatchTask :=
  if i then s.task1 else s.task0

/-- Replace the phase of task `i`. -/
def setPhase (s : DispatchSched) (i : Bool) (ph : DispatchPhase) : DispatchSched :=
  if i then { s with task1 := { s.task1 with phase := ph } }
  else { s with task0 := { s.task0 with phase := ph } }

/-- One scheduler step of task `i`: `start → acquired` performs
`self.functions.lock().await`, which can only proceed while no task owns the
mutex; `acquired → running` begins awaiting the handler with the guard still
held; `running → done` returns from the handler and drops the guard. `none`
means the task cannot make progress. -/
def stepTask (s : DispatchSched) (i : Bool) : Option DispatchSched :=
  match (getTask s i).phase with
  | .start =>
    match s.owner with
    | none => some { setPhase s i .acquired with owner := some i }
    | some _ => none
  | .acquired => some (setPhase s i .running)
  | .running => some { setPhase s i .done with owner := none }
  | .done => none

/-- Run a schedule: each entry names the task that takes the next step; the whole
schedule fails if a named task is blocked. -/
def runSched (s : DispatchSched) : List Bool → Option DispatchSched
  | [] => some s
  | i :: rest =>
    match stepTask s i with
    | none => none
    | some s2 => runSched s2 rest

/-- Both dispatch tasks at their starting point, mutex free. -/
def initSched (t0 t1 : String) : DispatchSched :=
  { owner := none, task0 := ⟨t0, .start⟩, task1 := ⟨t1, .start⟩ }

/-! Concrete fixtures used by the witness theorems. -/

/-- A registered test function named `"alpha"`. -/
def alphaFn : ComputeFunction :=
  { name := "alpha", receive_request := fun _ => Except.ok ComputeResponse.ok }

/-- A second, different implementation that also calls itself `"alpha"`. -/
def alphaClone : ComputeFunction :=
  { name := "alpha",
    receive_request := fun _ =>
      Except.ok (ComputeResponse.NoContent GenericStatusCode.Unknown) }

/-- A manager whose table already holds `"alpha"`. -/
def sAlpha : ComputeFunctionManager :=
  { functions := [("alpha", alphaFn)], loaded_libraries := [], builtins := ⟨[]⟩ }

/-- An environment whose constructed plugin collides with the name `"alpha"`. -/
def envClash : LoadEnv :=
  { pathExists := .found, openLib := .ok ⟨7⟩, getCtor := .ok (),
    ctorResult := some alphaClone }

/-- An environment that constructs a fresh `"alpha"` plugin successfully. -/
def envFresh : LoadEnv :=
  { pathExists := .found, openLib := .ok ⟨1⟩, getCtor := .ok (),
    ctorResult := some alphaFn }

/-- An environment whose path-existence check reports the file missing. -/
def envAbsent : LoadEnv :=
  { pathExists := .missing, openLib := .ok ⟨3⟩, getCtor := .ok (),
    ctorResult := some alphaFn }

/-- An environment whose path-existence check fails with an I/O error. -/
def envIoErr : LoadEnv :=
  { pathExists := .ioError "permission denied", openLib := .ok ⟨3⟩, getCtor := .ok (),
    ctorResult := some alphaFn }

/-- A request addressed to `"alpha"`. -/
def reqAlpha : ComputeRequest :=
  { target := ⟨"alpha"⟩, data := JsonValue.null }

/-- A request addressed to the unregistered name `"gamma"`. -/
def reqGamma : ComputeRequest :=
  { target := ⟨"gamma"⟩, data := JsonValue.null }

/-! Basic lemmas about the association-list model of the function table. -/

theorem tableLookup_eq_none_of_not_mem {t : FuncTable} {k : String}
    (h : k ∉ tableKeys t) : tableLookup t k = none := by
  induction t with
  | nil => rfl
  | cons kv rest ih =>
    obtain ⟨k0, v0⟩ := kv
    simp only [tableKeys, List.map_cons, List.mem_cons, not_or] at h
    simp only [tableLookup]
    rw [if_neg fun hk => h.1 hk.symm]
    exact ih (by simpa [tableKeys] using h.2)

theorem mem_of_tableLookup {t : FuncTable} {k : String} {v : ComputeFunction}
    (h : tableLookup t k = some v) : (k, v) ∈ t := by
  induction t with
  | nil => simp [tableLookup] at h
  | cons kv rest ih =>
    obtain ⟨k0, v0⟩ := kv
    simp only [tableLookup] at h
    by_cases hk : k0 = k
    · subst hk
      rw [if_pos rfl] at h
      obtain rfl : v0 = v := by simpa using h
      exact List.mem_cons_self _ _
    · rw [if_neg hk] at h
      exact List.mem_cons_of_mem _ (ih h)

theorem tableLookup_insert_self (t : FuncTable) (k : String) (v : ComputeFunction) :
    tableLookup (tableInsert t k v) k = some v := by
  induction t with
  | nil => simp [tableInsert, tableLookup]
  | cons kv rest ih =>
    obtain ⟨k0, v0⟩ := kv
    by_cases hk : k0 = k
    · simp [tableInsert, hk, tableLookup]
    · simp [tableInsert, hk, tableLookup, ih]

theorem tableLookup_insert_ne {t : FuncTable} {k k2 : String} {v : ComputeFunction}
    (h : k2 ≠ k) : tableLookup (tableInsert t k v) k2 = tableLookup t k2 := by
  induction t with
  | nil =>
    simp only [tableInsert, tableLookup]
    rw [if_neg (Ne.symm h)]
  | cons kv rest ih =>
    obtain ⟨k0, v0⟩ := kv
    by_cases hk : k0 = k
    · subst hk
      rw [show tableInsert ((k0, v0) :: rest) k0 v = (k0, v) :: rest from by
        simp [tableInsert]]
      simp only [tableLookup]
      rw [if_neg (Ne.symm h), if_neg (Ne.symm h)]
    · simp only [tableInsert, if_neg hk, tableLookup, ih]

theorem mem_tableInsert {t : FuncTable} {k : String} {v : ComputeFunction}
    {kv : String × ComputeFunction} (h : kv ∈ tableInsert t k v) :
    kv = (k, v) ∨ kv ∈ t := by
  induction t with
  | nil => simpa [tableInsert] using h
  | cons kv0 rest ih =>
    obtain ⟨k0, v0⟩ := kv0
    by_cases hk : k0 = k
    · simp only [tableInsert, if_pos hk] at h
      rcases List.mem_cons.1 h with h | h
      · exact Or.inl h
      · exact Or.inr (List.mem_cons_of_mem _ h)
    · simp only [tableInsert, if_neg hk] at h
      rcases List.mem_cons.1 h with h | h
      · exact Or.inr (h ▸ List.mem_cons_self _ _)
      · rcases ih h with h | h
        · exact Or.inl h
        · exact Or.inr (List.mem_cons_of_mem _ h)

theorem mem_tableKeys_insert {t : FuncTable} {k a : String} {v : ComputeFunction}
    (h : a ∈ tableKeys (tableInsert t k v)) : a = k ∨ a ∈ tableKeys t := by
  simp only [tableKeys, List.mem_map] at h
  obtain ⟨kv, hmem, hfst⟩ := h
  rcases mem_tableInsert hmem with h | h
  · subst h
    exact Or.inl hfst.symm
  · refine Or.inr ?_
    show a ∈ (t.map Prod.fst)
    exact List.mem_map.2 ⟨kv, h, hfst⟩

theorem nodupKeys_insert {t : FuncTable} {k : String} {v : ComputeFunction}
    (h : nodupKeys t) : nodupKeys (tableInsert t k v) := by
  induction t with
  | nil => simp [tableInsert, nodupKeys, tableKeys]
  | cons kv rest ih =>
    obtain ⟨k0, v0⟩ := kv
    simp only [nodupKeys, tableKeys, List.map_cons, List.nodup_cons] at h
    by_cases hk : k0 = k
    · subst hk
      simpa [tableInsert, nodupKeys, tableKeys, List.nodup_cons] using h
    · have ih2 := ih h.2
      simp only [tableInsert, if_neg hk, nodupKeys, tableKeys, List.map_cons,
        List.nodup_cons]
      refine ⟨fun hmem => ?_, ih2⟩
      rcases mem_tableKeys_insert hmem with h2 | h2
      · exact hk h2
      · exact h.1 h2

theorem tableKeys_remove_sublist (t : FuncTable) (k : String) :
    List.Sublist (tableKeys (tableRemove t k)) (tableKeys t) := by
  induction t with
  | nil => simp [tableRemove]
  | cons kv rest ih =>
    obtain ⟨k0, v0⟩ := kv
    by_cases hk : k0 = k
    · rw [show tableRemove ((k0, v0) :: rest) k = rest from by
        simp only [tableRemove, if_pos hk]]
      exact List.sublist_cons_self _ _
    · rw [show tableRemove ((k0, v0) :: rest) k = (k0, v0) :: tableRemove rest k from by
        simp only [tableRemove, if_neg hk]]
      exact List.Sublist.cons₂ _ ih

theorem nodupKeys_remove {t : FuncTable} {k : String} (h : nodupKeys t) :
    nodupKeys (tableRemove t k) := by
  exact List.Nodup.sublist (tableKeys_remove_sublist t k) h

theorem mem_tableRemove {t : FuncTable} {k : String} {kv : String × ComputeFunction}
    (h : kv ∈ tableRemove t k) : kv ∈ t := by
  induction t with
  | nil => simp [tableRemove] at h
  | cons kv0 rest ih =>
    obtain ⟨k0, v0⟩ := kv0
    by_cases hk : k0 = k
    · simp only [tableRemove, if_pos hk] at h
      exact List.mem_cons_of_mem _ h
    · simp only [tableRemove, if_neg hk] at h
      rcases List.mem_cons.1 h with h | h
      · exact h ▸ List.mem_cons_self _ _
      · exact List.mem_cons_of_mem _ (ih h)

theorem tableLookup_remove_self {t : FuncTable} {k : String} (h : nodupKeys t) :
    tableLookup (tableRemove t k) k = none := by
  induction t with
  | nil => rfl
  | cons kv rest ih =>
    obtain ⟨k0, v0⟩ := kv
    simp only [nodupKeys, tableKeys, List.map_cons, List.nodup_cons] at h
    by_cases hk : k0 = k
    · subst hk
      simp only [tableRemove, if_pos rfl]
      exact tableLookup_eq_none_of_not_mem h.1
    · simp only [tableRemove, if_neg hk, tableLookup, if_neg hk]
      exact ih h.2

theorem tableLookup_remove_ne {t : FuncTable} {k k2 : String} (h : k2 ≠ k) :
    tableLookup (tableRemove t k) k2 = tableLookup t k2 := by
  induction t with
  | nil => rfl
  | cons kv rest ih =>
    obtain ⟨k0, v0⟩ := kv
    by_cases hk : k0 = k
    · subst hk
      rw [show tableRemove ((k0, v0) :: rest) k0 = rest from by
        simp [tableRemove]]
      simp only [tableLookup]
      rw [if_neg (Ne.symm h)]
    · simp only [tableRemove, if_neg hk, tableLookup, ih]

theorem push_request_congr {s1 s2 : ComputeFunctionManager}
    (h : s1.functions = s2.functions) (request : ComputeRequest) :
    push_request s1 request = push_request s2 request := by
  simp only [push_request, h]

/-! Branch equations for `load_plugin`, mirroring its failure modes in order. -/

theorem load_plugin_eq_bad_path {p : String} (s : ComputeFunctionManager) (env : LoadEnv)
    (h : path_is_absolute p = false) :
    load_plugin s env p =
      (Except.error (LoadingError.BadPath ("Path `" ++ p ++ "` is not absolute.")), s, []) := by
  simp [load_plugin, h, LoadingError.bad_path]

theorem load_plugin_eq_path_not_found {p : String} (s : ComputeFunctionManager)
    (env : LoadEnv) (h : path_is_absolute p = true)
    (h2 : env.pathExists = ExistsCheck.missing) :
    load_plugin s env p =
      (Except.error (LoadingError.PathNotFound ("Path `" ++ p ++ "` does not exist.")),
        s, []) := by
  simp [load_plugin, h, h2, LoadingError.path_not_found]

theorem load_plugin_eq_io_error {p e : String} (s : ComputeFunctionManager) (env : LoadEnv)
    (h : path_is_absolute p = true) (h2 : env.pathExists = ExistsCheck.ioError e) :
    load_plugin s env p =
      (Except.error (LoadingError.BadPath
          ("Could not verify the existence of `" ++ p ++
            "`, either due to errors or lack of permissions. Os error: " ++ e)), s, []) := by
  simp [load_plugin, h, h2, LoadingError.bad_path]

theorem load_plugin_eq_lib_failure {p e : String} (s : ComputeFunctionManager)
    (env : LoadEnv) (h : path_is_absolute p = true)
    (h2 : env.pathExists = ExistsCheck.found) (h3 : env.openLib = Except.error e) :
    load_plugin s env p = (Except.error (LoadingError.LibraryLoadFailure e), s, []) := by
  simp [load_plugin, h, h2, h3, LoadingError.lib_load_failure]

theorem load_plugin_eq_ctor_load_failure {p e : String} {lib : Library}
    (s : ComputeFunctionManager) (env : LoadEnv) (h : path_is_absolute p = true)
    (h2 : env.pathExists = ExistsCheck.found) (h3 : env.openLib = Except.ok lib)
    (h4 : env.getCtor = Except.error e) :
    load_plugin s env p =
      (Except.error (LoadingError.ConstructorLoadFailure e),
        { s with loaded_libraries := s.loaded_libraries ++ [lib] }, []) := by
  simp [load_plugin, h, h2, h3, h4, LoadingError.ctor_load_failure]

theorem load_plugin_eq_ctor_call_failure {p : String} {lib : Library}
    (s : ComputeFunctionManager) (env : LoadEnv) (h : path_is_absolute p = true)
    (h2 : env.pathExists = ExistsCheck.found) (h3 : env.openLib = Except.ok lib)
    (h4 : env.getCtor = Except.ok ()) (h5 : env.ctorResult = none) :
    load_plugin s env p =
      (Except.error LoadingError.ConstructorCallFailure,
        { s with loaded_libraries := s.loaded_libraries ++ [lib] }, []) := by
  simp [load_plugin, h, h2, h3, h4, h5, LoadingError.ctor_call_failure]

theorem load_plugin_eq_collision {p : String} {lib : Library} {plugin : ComputeFunction}
    (s : ComputeFunctionManager) (env : LoadEnv) (h : path_is_absolute p = true)
    (h2 : env.pathExists = ExistsCheck.found) (h3 : env.openLib = Except.ok lib)
    (h4 : env.getCtor = Except.ok ()) (h5 : env.ctorResult = some plugin)
    (h6 : tableContains s.functions plugin.name = true) :
    load_plugin s env p =
      (Except.error (LoadingError.FunctionNameCollision plugin.name),
        { s with loaded_libraries := s.loaded_libraries ++ [lib] }, []) := by
  simp [load_plugin, h, h2, h3, h4, h5, h6, LoadingError.name_collision]

theorem load_plugin_eq_success {p : String} {lib : Library} {plugin : ComputeFunction}
    (s : ComputeFunctionManager) (env : LoadEnv) (h : path_is_absolute p = true)
    (h2 : env.pathExists = ExistsCheck.found) (h3 : env.openLib = Except.ok lib)
    (h4 : env.getCtor = Except.ok ()) (h5 : env.ctorResult = some plugin)
    (h6 : tableContains s.functions plugin.name = false) :
    load_plugin s env p =
      (Except.ok (),
        { s with
          loaded_libraries := s.loaded_libraries ++ [lib]
          functions := tableInsert s.functions plugin.name plugin },
        [HookEvent.onLoad plugin.name, HookEvent.registered plugin.name]) := by
  simp [load_plugin, h, h2, h3, h4, h5, h6]

/-! Branch equations for the remaining manager operations. -/

theorem load_builtin_eq_already (s : ComputeFunctionManager) {kind : BuiltinFunction}
    (h : s.builtins.contains kind = true) :
    load_builtin_function s kind = (Except.ok false, s, []) := by
  simp [load_builtin_function, BuiltinFunctionList.add, h]

theorem load_builtin_eq_new (s : ComputeFunctionManager) {kind : BuiltinFunction}
    (h : s.builtins.contains kind = false) :
    load_builtin_function s kind =
      (Except.ok true,
        { s with
          builtins := ⟨kind :: s.builtins.set⟩
          functions := tableInsert s.functions kind.create.name kind.create },
        [HookEvent.registered kind.create.name]) := by
  simp [load_builtin_function, BuiltinFunctionList.add, h]

theorem unload_plugin_eq_absent (s : ComputeFunctionManager) {target : TargetComputeFunc}
    (h : tableLookup s.functions target.name = none) :
    unload_plugin s target = (Except.error (UnloadingError.TargetNotFound target), s, []) := by
  simp [unload_plugin, h]

theorem unload_plugin_eq_found (s : ComputeFunctionManager) {target : TargetComputeFunc}
    {plugin : ComputeFunction} (h : tableLookup s.functions target.name = some plugin) :
    unload_plugin s target =
      (Except.ok (), { s with functions := tableRemove s.functions target.name },
        [HookEvent.onUnload plugin.name]) := by
  simp [unload_plugin, h]

theorem push_request_eq_absent (s : ComputeFunctionManager) {request : ComputeRequest}
    (h : tableLookup s.functions request.target.name = none) :
    push_request s request = (Except.error (AppError.TargetNotFound request.target), []) := by
  simp [push_request, h]

theorem push_request_eq_found (s : ComputeFunctionManager) {request : ComputeRequest}
    {plugin : ComputeFunction}
    (h : tableLookup s.functions request.target.name = some plugin) :
    push_request s request =
      (match plugin.receive_request request with
        | .ok resp => Except.ok resp
        | .error e => Except.error (AppError.BadRequest e),
        [HookEvent.invoked plugin.name]) := by
  simp [push_request, h]

/-! Case-shape and inversion lemmas for `load_plugin`. -/

theorem load_plugin_shape (s : ComputeFunctionManager) (env : LoadEnv) (p : String) :
    ((load_plugin s env p).2.1.functions = s.functions ∧ (load_plugin s env p).2.2 = []) ∨
    ∃ plugin, env.ctorResult = some plugin ∧
      tableContains s.functions plugin.name = false ∧
      (load_plugin s env p).2.1.functions = tableInsert s.functions plugin.name plugin ∧
      (load_plugin s env p).2.2 =
        [HookEvent.onLoad plugin.name, HookEvent.registered plugin.name] := by
  cases habs : path_is_absolute p with
  | false => rw [load_plugin_eq_bad_path s env habs]; exact Or.inl ⟨rfl, rfl⟩
  | true =>
    cases hex : env.pathExists with
    | missing => rw [load_plugin_eq_path_not_found s env habs hex]; exact Or.inl ⟨rfl, rfl⟩
    | ioError e => rw [load_plugin_eq_io_error s env habs hex]; exact Or.inl ⟨rfl, rfl⟩
    | found =>
      cases hopen : env.openLib with
      | error e => rw [load_plugin_eq_lib_failure s env habs hex hopen]; exact Or.inl ⟨rfl, rfl⟩
      | ok lib =>
        cases hctor : env.getCtor with
        | error e =>
          rw [load_plugin_eq_ctor_load_failure s env habs hex hopen hctor]
          exact Or.inl ⟨rfl, rfl⟩
        | ok u =>
          cases u
          cases hres : env.ctorResult with
          | none =>
            rw [load_plugin_eq_ctor_call_failure s env habs hex hopen hctor hres]
            exact Or.inl ⟨rfl, rfl⟩
          | some plugin =>
            cases hcol : tableContains s.functions plugin.name with
            | true =>
              rw [load_plugin_eq_collision s env habs hex hopen hctor hres hcol]
              exact Or.inl ⟨rfl, rfl⟩
            | false =>
              rw [load_plugin_eq_success s env habs hex hopen hctor hres hcol]
              exact Or.inr ⟨plugin, rfl, hcol, rfl, rfl⟩

theorem load_plugin_ok_inv {s : ComputeFunctionManager} {env : LoadEnv} {p : String}
    (h : (load_plugin s env p).1 = Except.ok ()) :
    ∃ plugin lib,
      path_is_absolute p = true ∧ env.pathExists = ExistsCheck.found ∧
      env.openLib = Except.ok lib ∧ env.getCtor = Except.ok () ∧
      env.ctorResult = some plugin ∧ tableContains s.functions plugin.name = false ∧
      load_plugin s env p =
        (Except.ok (),
          { s with
            loaded_libraries := s.loaded_libraries ++ [lib]
            functions := tableInsert s.functions plugin.name plugin },
          [HookEvent.onLoad plugin.name, HookEvent.registered plugin.name]) := by
  cases habs : path_is_absolute p with
  | false => rw [load_plugin_eq_bad_path s env habs] at h; simp at h
  | true =>
    cases hex : env.pathExists with
    | missing => rw [load_plugin_eq_path_not_found s env habs hex] at h; simp at h
    | ioError e => rw [load_plugin_eq_io_error s env habs hex] at h; simp at h
    | found =>
      cases hopen : env.openLib with
      | error e => rw [load_plugin_eq_lib_failure s env habs hex hopen] at h; simp at h
      | ok lib =>
        cases hctor : env.getCtor with
        | error e =>
          rw [load_plugin_eq_ctor_load_failure s env habs hex hopen hctor] at h
          simp at h
        | ok u =>
          cases u
          cases hres : env.ctorResult with
          | none =>
            rw [load_plugin_eq_ctor_call_failure s env habs hex hopen hctor hres] at h
            simp at h
          | some plugin =>
            cases hcol : tableContains s.functions plugin.name with
            | true =>
              rw [load_plugin_eq_collision s env habs hex hopen hctor hres hcol] at h
              simp at h
            | false =>
              exact ⟨plugin, lib, rfl, rfl, rfl, rfl, rfl, hcol,
                load_plugin_eq_success s env habs hex hopen hctor hres hcol⟩

theorem load_plugin_libraries_appended {s : ComputeFunctionManager} {env : LoadEnv}
    {p : String} {lib : Library} (habs : path_is_absolute p = true)
    (hex : env.pathExists = ExistsCheck.found) (hopen : env.openLib = Except.ok lib) :
    (load_plugin s env p).2.1.loaded_libraries = s.loaded_libraries ++ [lib] := by
  cases hctor : env.getCtor with
  | error e => rw [load_plugin_eq_ctor_load_failure s env habs hex hopen hctor]
  | ok u =>
    cases u
    cases hres : env.ctorResult with
    | none => rw [load_plugin_eq_ctor_call_failure s env habs hex hopen hctor hres]
    | some plugin =>
      cases hcol : tableContains s.functions plugin.name with
      | true => rw [load_plugin_eq_collision s env habs hex hopen hctor hres hcol]
      | false => rw [load_plugin_eq_success s env habs hex hopen hctor hres hcol]

theorem load_plugin_error_after_open {s : ComputeFunctionManager} {env : LoadEnv}
    {p : String} {lib : Library} {err : LoadingError} (habs : path_is_absolute p = true)
    (hex : env.pathExists = ExistsCheck.found) (hopen : env.openLib = Except.ok lib)
    (h : (load_plugin s env p).1 = Except.error err) :
    (load_plugin s env p).2.1.functions = s.functions ∧
      ((∃ m, err = LoadingError.ConstructorLoadFailure m) ∨
       err = LoadingError.ConstructorCallFailure ∨
       (∃ n, err = LoadingError.FunctionNameCollision n)) := by
  cases hctor : env.getCtor with
  | error e =>
    rw [load_plugin_eq_ctor_load_failure s env habs hex hopen hctor] at h ⊢
    obtain rfl : LoadingError.ConstructorLoadFailure e = err := by simpa using h
    exact ⟨rfl, Or.inl ⟨e, rfl⟩⟩
  | ok u =>
    cases u
    cases hres : env.ctorResult with
    | none =>
      rw [load_plugin_eq_ctor_call_failure s env habs hex hopen hctor hres] at h ⊢
      obtain rfl : LoadingError.ConstructorCallFailure = err := by simpa using h
      exact ⟨rfl, Or.inr (Or.inl rfl)⟩
    | some plugin =>
      cases hcol : tableContains s.functions plugin.name with
      | true =>
        rw [load_plugin_eq_collision s env habs hex hopen hctor hres hcol] at h ⊢
        obtain rfl : LoadingError.FunctionNameCollision plugin.name = err := by simpa using h
        exact ⟨rfl, Or.inr (Or.inr ⟨plugin.name, rfl⟩)⟩
      | false =>
        rw [load_plugin_eq_success s env habs hex hopen hctor hres hcol] at h
        simp at h

/-! Uniqueness of names in the function table is preserved by every operation. -/

theorem step_nodupKeys {s : ComputeFunctionManager} (op : Op)
    (h : nodupKeys s.functions) : nodupKeys ((step s op).1.functions) := by
  cases op with
  | loadPlugin env p =>
    show nodupKeys (load_plugin s env p).2.1.functions
    rcases load_plugin_shape s env p with ⟨hf, _⟩ | ⟨plugin, _, _, hf, _⟩
    · rw [hf]; exact h
    · rw [hf]; exact nodupKeys_insert h
  | loadBuiltin kind =>
    show nodupKeys (load_builtin_function s kind).2.1.functions
    cases hc : s.builtins.contains kind with
    | true => rw [load_builtin_eq_already s hc]; exact h
    | false => rw [load_builtin_eq_new s hc]; exact nodupKeys_insert h
  | unloadPlugin target =>
    show nodupKeys (unload_plugin s target).2.1.functions
    cases hl : tableLookup s.functions target.name with
    | none => rw [unload_plugin_eq_absent s hl]; exact h
    | some plugin => rw [unload_plugin_eq_found s hl]; exact nodupKeys_remove h
  | pushRequest request => exact h
  | unloadAll => simp [step, unload_all, nodupKeys, tableKeys]

/-! Trace lemmas: `on_plugin_unload` is only ever fired for registered names. -/

theorem regsAfter_append (tr1 tr2 : List HookEvent) (regs : List String) :
    regsAfter (tr1 ++ tr2) regs = regsAfter tr2 (regsAfter tr1 regs) := by
  induction tr1 generalizing regs with
  | nil => rfl
  | cons e rest ih => cases e <;> simp [regsAfter, ih]

theorem unloadsCovered_append (tr1 tr2 : List HookEvent) (regs : List String) :
    unloadsCovered (tr1 ++ tr2) regs =
      (unloadsCovered tr1 regs && unloadsCovered tr2 (regsAfter tr1 regs)) := by
  induction tr1 generalizing regs with
  | nil => simp [unloadsCovered, regsAfter]
  | cons e rest ih =>
    cases e with
    | onLoad n => simp [unloadsCovered, regsAfter, ih]
    | onUnload n => simp [unloadsCovered, regsAfter, ih, Bool.and_assoc]
    | registered n => simp [unloadsCovered, regsAfter, ih]
    | invoked n => simp [unloadsCovered, regsAfter, ih]

theorem contains_cons_of_contains {n m : String} {regs : List String}
    (h : regs.contains n = true) : (m :: regs).contains n = true := by
  simp only [List.contains_cons, h, Bool.or_true]

theorem contains_cons_self (n : String) (regs : List String) :
    (n :: regs).contains n = true := by
  simp [List.contains_cons]

/-- The table keys are well-formed (each entry's stored name is its key) and all
appear among the registered names. -/
def tableTracked (t : FuncTable) (regs : List String) : Prop :=
  ∀ kv ∈ t, kv.2.name = kv.1 ∧ regs.contains kv.1 = true

theorem tableTracked_cons {t : FuncTable} {regs : List String} {m : String}
    (h : tableTracked t regs) : tableTracked t (m :: regs) := by
  intro kv hkv
  exact ⟨(h kv hkv).1, contains_cons_of_contains (h kv hkv).2⟩

theorem unloadsCovered_map_onUnload {t : FuncTable} {regs : List String}
    (h : ∀ kv ∈ t, regs.contains kv.2.name = true) :
    unloadsCovered (t.map fun kv => HookEvent.onUnload kv.2.name) regs = true := by
  induction t with
  | nil => rfl
  | cons kv rest ih =>
    simp only [List.map_cons, unloadsCovered]
    rw [h kv (List.mem_cons_self _ _), ih fun kv2 hm => h kv2 (List.mem_cons_of_mem _ hm)]
    rfl

theorem step_covered {s : ComputeFunctionManager} {regs : List String} (op : Op)
    (h : tableTracked s.functions regs) :
    unloadsCovered (step s op).2 regs = true ∧
      tableTracked (step s op).1.functions (regsAfter (step s op).2 regs) := by
  cases op with
  | loadPlugin env p =>
    show unloadsCovered (load_plugin s env p).2.2 regs = true ∧
      tableTracked (load_plugin s env p).2.1.functions
        (regsAfter (load_plugin s env p).2.2 regs)
    rcases load_plugin_shape s env p with ⟨hf, htr⟩ | ⟨plugin, _, _, hf, htr⟩
    · rw [hf, htr]; exact ⟨rfl, h⟩
    · rw [hf, htr]
      refine ⟨rfl, ?_⟩
      intro kv hkv
      rcases mem_tableInsert hkv with rfl | hkv2
      · exact ⟨rfl, contains_cons_self _ _⟩
      · obtain ⟨hname, hcont⟩ := h kv hkv2
        exact ⟨hname, contains_cons_of_contains hcont⟩
  | loadBuiltin kind =>
    show unloadsCovered (load_builtin_function s kind).2.2 regs = true ∧
      tableTracked (load_builtin_function s kind).2.1.functions
        (regsAfter (load_builtin_function s kind).2.2 regs)
    cases hc : s.builtins.contains kind with
    | true => rw [load_builtin_eq_already s hc]; exact ⟨rfl, h⟩
    | false =>
      rw [load_builtin_eq_new s hc]
      refine ⟨rfl, ?_⟩
      intro kv hkv
      rcases mem_tableInsert hkv with rfl | hkv2
      · exact ⟨rfl, contains_cons_self _ _⟩
      · obtain ⟨hname, hcont⟩ := h kv hkv2
        exact ⟨hname, contains_cons_of_contains hcont⟩
  | unloadPlugin target =>
    show unloadsCovered (unload_plugin s target).2.2 regs = true ∧
      tableTracked (unload_plugin s target).2.1.functions
        (regsAfter (unload_plugin s target).2.2 regs)
    cases hl : tableLookup s.functions target.name with
    | none => rw [unload_plugin_eq_absent s hl]; exact ⟨rfl, h⟩
    | some plugin =>
      rw [unload_plugin_eq_found s hl]
      obtain ⟨hname, hcont⟩ := h (target.name, plugin) (mem_of_tableLookup hl)
      constructor
      · show (regs.contains plugin.name && unloadsCovered [] regs) = true
        rw [show plugin.name = target.name from hname, hcont]
        rfl
      · intro kv hkv
        exact h kv (mem_tableRemove hkv)
  | pushRequest request =>
    show unloadsCovered (push_request s request).2 regs = true ∧
      tableTracked s.functions (regsAfter (push_request s request).2 regs)
    cases hl : tableLookup s.functions request.target.name with
    | none => rw [push_request_eq_absent s hl]; exact ⟨rfl, h⟩
    | some plugin => rw [push_request_eq_found s hl]; exact ⟨rfl, h⟩
  | unloadAll =>
    show unloadsCovered (unload_all s).2 regs = true ∧
      tableTracked (unload_all s).1.functions (regsAfter (unload_all s).2 regs)
    constructor
    · exact unloadsCovered_map_onUnload fun kv hkv =>
        (h kv hkv).1 ▸ (h kv hkv).2
    · intro kv hkv
      simp [unload_all] at hkv

theorem run_covered (ops : List Op) (s : ComputeFunctionManager) (regs : List String)
    (h : tableTracked s.functions regs) :
    unloadsCovered (run s ops).2 regs = true := by
  induction ops generalizing s regs with
  | nil => rfl
  | cons op rest ih =>
    obtain ⟨h1, h2⟩ := step_covered op h
    show unloadsCovered ((step s op).2 ++ (run (step s op).1 rest).2) regs = true
    rw [unloadsCovered_append, h1, ih _ _ h2]
    rfl

/-! The claims. -/

/-- C1: for every registry state, a dynamic load whose constructed plugin's name
already exists in the function table returns `FunctionNameCollision` carrying that
name, fires no hooks, leaves the function table untouched — so a subsequent
dispatch to that name behaves exactly as before, reaching the originally
registered implementation — and every manager operation preserves the invariant
that the function table maps each name to at most one instance. -/
theorem C1_collision_rejected_and_names_unique :
    (∀ (s : ComputeFunctionManager) (env : LoadEnv) (p : String) (lib : Library)
        (plugin : ComputeFunction),
        path_is_absolute p = true → env.pathExists = ExistsCheck.found →
        env.openLib = Except.ok lib → env.getCtor = Except.ok () →
        env.ctorResult = some plugin → tableContains s.functions plugin.name = true →
        (load_plugin s env p).1
            = Except.error (LoadingError.FunctionNameCollision plugin.name) ∧
          (load_plugin s env p).2.1.functions = s.functions ∧
          (load_plugin s env p).2.2 = [] ∧
          ∀ request : ComputeRequest,
            push_request (load_plugin s env p).2.1 request = push_request s request) ∧
    ∀ (s : ComputeFunctionManager) (op : Op),
      nodupKeys s.functions → nodupKeys ((step s op).1.functions) := by
  constructor
  · intro s env p lib plugin habs hex hopen hctor hres hcol
    rw [load_plugin_eq_collision s env habs hex hopen hctor hres hcol]
    exact ⟨rfl, rfl, rfl, fun request => push_request_congr rfl request⟩
  · intro s op h
    exact step_nodupKeys op h

/-- C1 witness: loading a colliding `"alpha"` plugin into a manager already
holding `"alpha"` is rejected with the collision error, the table is unchanged,
dispatch to `"alpha"` still reaches the original implementation, and key
uniqueness is preserved by a concrete step. -/
theorem C1_witness :
    (load_plugin sAlpha envClash "/plugins/alpha.so").1
        = Except.error (LoadingError.FunctionNameCollision "alpha") ∧
      (load_plugin sAlpha envClash "/plugins/alpha.so").2.1.functions
        = sAlpha.functions ∧
      push_request (load_plugin sAlpha envClash "/plugins/alpha.so").2.1 reqAlpha
        = push_request sAlpha reqAlpha ∧
      nodupKeys ((step sAlpha (Op.unloadPlugin ⟨"alpha"⟩)).1.functions) := by
  obtain ⟨h1, h2⟩ := C1_collision_rejected_and_names_unique
  obtain ⟨ha, hb, _, hd⟩ :=
    h1 sAlpha envClash "/plugins/alpha.so" ⟨7⟩ alphaClone rfl rfl rfl rfl rfl (by decide)
  exact ⟨ha, hb, hd reqAlpha,
    h2 sAlpha (Op.unloadPlugin ⟨"alpha"⟩) (List.nodup_singleton "alpha")⟩

/-- C2 counterexample: `load_builtin_function` on a fresh manager performs a
successful load (it returns `Ok(true)` and registers the logger in the table),
yet its event trace contains no `on_plugin_load` call — refuting the claim that
the on-load hook is called exactly once for every successful load, whether
dynamic or built-in. -/
theorem C2_counterexample_builtin_load_fires_no_onLoad :
    (load_builtin_function ComputeFunctionManager.new BuiltinFunction.Logger).1
        = Except.ok true ∧
      (load_builtin_function ComputeFunctionManager.new BuiltinFunction.Logger).2.2
        = [HookEvent.registered "logger"] ∧
      hasOnLoad
          (load_builtin_function ComputeFunctionManager.new BuiltinFunction.Logger).2.2
        = false := by
  exact ⟨rfl, rfl, rfl⟩

/-- C2 (amended): `on_plugin_load` is called exactly once per successful dynamic
load via `load_plugin`, before the function becomes dispatchable (the name was
absent, the hook precedes registration in the trace, and the instance is
dispatchable afterwards); `load_builtin_function` never fires the on-load hook;
`on_plugin_unload` is called exactly once per removal — once by a successful
`unload_plugin`, never when the target is absent, and once per drained instance
at `unload_all` teardown — and over every history of operations from a fresh
manager it is never called for a name that was not registered by an earlier
successful load. -/
theorem C2_hook_discipline :
    (∀ (s : ComputeFunctionManager) (env : LoadEnv) (p : String)
        (plugin : ComputeFunction), env.ctorResult = some plugin →
        (load_plugin s env p).1 = Except.ok () →
        (load_plugin s env p).2.2
            = [HookEvent.onLoad plugin.name, HookEvent.registered plugin.name] ∧
          tableContains s.functions plugin.name = false ∧
          tableLookup (load_plugin s env p).2.1.functions plugin.name = some plugin) ∧
    (∀ (s : ComputeFunctionManager) (kind : BuiltinFunction),
        hasOnLoad (load_builtin_function s kind).2.2 = false) ∧
    (∀ (s : ComputeFunctionManager) (target : TargetComputeFunc)
        (plugin : ComputeFunction),
        tableLookup s.functions target.name = some plugin →
        (unload_plugin s target).2.2 = [HookEvent.onUnload plugin.name]) ∧
    (∀ (s : ComputeFunctionManager) (target : TargetComputeFunc),
        tableLookup s.functions target.name = none →
        (unload_plugin s target).2.2 = []) ∧
    (∀ s : ComputeFunctionManager,
        (unload_all s).2 = s.functions.map fun kv => HookEvent.onUnload kv.2.name) ∧
    ∀ ops : List Op, unloadsCovered (run ComputeFunctionManager.new ops).2 [] = true := by
  refine ⟨?_, ?_, ?_, ?_, fun s => rfl, ?_⟩
  · intro s env p plugin hres h
    obtain ⟨plugin2, lib, _, _, _, _, hres2, hcol, heq⟩ := load_plugin_ok_inv h
    obtain rfl : plugin2 = plugin := by
      rw [hres] at hres2
      exact (Option.some.injEq _ _ ▸ hres2).symm
    rw [heq]
    exact ⟨rfl, hcol, tableLookup_insert_self _ _ _⟩
  · intro s kind
    cases hc : s.builtins.contains kind with
    | true => rw [load_builtin_eq_already s hc]; rfl
    | false => rw [load_builtin_eq_new s hc]; rfl
  · intro s target plugin h
    rw [unload_plugin_eq_found s h]
  · intro s target h
    rw [unload_plugin_eq_absent s h]
  · intro ops
    exact run_covered ops ComputeFunctionManager.new []
      (fun kv hkv => absurd hkv (List.not_mem_nil kv))

/-- C2 witness: a concrete successful dynamic load of `"alpha"` fires
`on_plugin_load` exactly once, before registration, and a concrete unload of a
registered `"alpha"` fires `on_plugin_unload` exactly once. -/
theorem C2_witness :
    (load_plugin ComputeFunctionManager.new envFresh "/plugins/alpha.so").2.2
        = [HookEvent.onLoad "alpha", HookEvent.registered "alpha"] ∧
      (unload_plugin sAlpha ⟨"alpha"⟩).2.2 = [HookEvent.onUnload "alpha"] := by
  obtain ⟨h1, _, h3, _, _, _⟩ := C2_hook_discipline
  constructor
  · exact (h1 ComputeFunctionManager.new envFresh "/plugins/alpha.so" alphaFn rfl rfl).1
  · exact h3 sAlpha ⟨"alpha"⟩ alphaFn rfl

/-- C3: when the target name is present, `unload_plugin` removes exactly that
entry (the target key becomes absent, every other key is untouched), fires the
removed instance's on-unload hook and returns success, after which a dispatch to
the same name returns `TargetNotFound`; when the name is absent it fails with
`UnloadingError::TargetNotFound` carrying the target and leaves the state
unchanged; in both cases the library-handle collection is unchanged. -/
theorem C3_unload_semantics :
    ∀ (s : ComputeFunctionManager) (target : TargetComputeFunc),
      (∀ plugin : ComputeFunction,
          tableLookup s.functions target.name = some plugin →
          unload_plugin s target
              = (Except.ok (),
                  { s with functions := tableRemove s.functions target.name },
                  [HookEvent.onUnload plugin.name]) ∧
            (∀ k : String, k ≠ target.name →
               tableLookup (unload_plugin s target).2.1.functions k
                 = tableLookup s.functions k) ∧
            (nodupKeys s.functions →
               tableLookup (unload_plugin s target).2.1.functions target.name = none ∧
               ∀ request : ComputeRequest, request.target = target →
                 push_request (unload_plugin s target).2.1 request
                   = (Except.error (AppError.TargetNotFound request.target), []))) ∧
      (tableLookup s.functions target.name = none →
         unload_plugin s target
           = (Except.error (UnloadingError.TargetNotFound target), s, [])) ∧
      (unload_plugin s target).2.1.loaded_libraries = s.loaded_libraries := by
  intro s target
  refine ⟨?_, fun h => unload_plugin_eq_absent s h, ?_⟩
  · intro plugin h
    rw [unload_plugin_eq_found s h]
    refine ⟨rfl, fun k hk => tableLookup_remove_ne hk, fun hnd => ?_⟩
    have hnone : tableLookup (tableRemove s.functions target.name) target.name = none :=
      tableLookup_remove_self hnd
    refine ⟨hnone, fun request hreq => ?_⟩
    refine push_request_eq_absent _ ?_
    rw [hreq]
    exact hnone
  · cases hl : tableLookup s.functions target.name with
    | none => rw [unload_plugin_eq_absent s hl]
    | some plugin => rw [unload_plugin_eq_found s hl]

/-- C3 witness: unloading the registered `"alpha"` from a concrete manager
succeeds, fires its on-unload hook, empties its slot so that a dispatch to
`"alpha"` afterwards returns `TargetNotFound`, and unloading the absent
`"gamma"` fails with `TargetNotFound` leaving the state unchanged. -/
theorem C3_witness :
    unload_plugin sAlpha ⟨"alpha"⟩
        = (Except.ok (), { sAlpha with functions := tableRemove sAlpha.functions "alpha" },
            [HookEvent.onUnload "alpha"]) ∧
      push_request (unload_plugin sAlpha ⟨"alpha"⟩).2.1 reqAlpha
        = (Except.error (AppError.TargetNotFound reqAlpha.target), []) ∧
      unload_plugin sAlpha ⟨"gamma"⟩
        = (Except.error (UnloadingError.TargetNotFound ⟨"gamma"⟩), sAlpha, []) := by
  obtain ⟨h1, h2, _⟩ := C3_unload_semantics sAlpha ⟨"alpha"⟩
  obtain ⟨ha, _, hc⟩ := h1 alphaFn rfl
  exact ⟨ha, (hc (List.nodup_singleton "alpha")).2 reqAlpha rfl,
    (C3_unload_semantics sAlpha ⟨"gamma"⟩).2.1 rfl⟩

/-- C4: `load_plugin` validates the path before any library is opened — for every
environment (whatever the library-open, symbol-resolution or constructor
outcomes), a non-absolute path fails with `BadPath`, an absolute path whose
existence check reports it missing fails with `PathNotFound`, and an I/O error
during the existence check fails with `BadPath` carrying the OS error text; in
each case the returned state is exactly the input state, so the function table,
the handle collection and the built-in set are unchanged. -/
theorem C4_path_validation :
    ∀ (s : ComputeFunctionManager) (env : LoadEnv) (p : String),
      (path_is_absolute p = false →
         load_plugin s env p
           = (Except.error
                 (LoadingError.BadPath ("Path `" ++ p ++ "` is not absolute.")),
               s, [])) ∧
      (path_is_absolute p = true → env.pathExists = ExistsCheck.missing →
         load_plugin s env p
           = (Except.error
                 (LoadingError.PathNotFound ("Path `" ++ p ++ "` does not exist.")),
               s, [])) ∧
      ∀ e : String, path_is_absolute p = true → env.pathExists = ExistsCheck.ioError e →
        load_plugin s env p
          = (Except.error (LoadingError.BadPath
                ("Could not verify the existence of `" ++ p ++
                  "`, either due to errors or lack of permissions. Os error: " ++ e)),
              s, []) := by
  intro s env p
  exact ⟨fun h => load_plugin_eq_bad_path s env h,
    fun h h2 => load_plugin_eq_path_not_found s env h h2,
    fun e h h2 => load_plugin_eq_io_error s env h h2⟩

/-- C4 witness: a relative path is rejected as `BadPath`, a missing absolute path
as `PathNotFound`, and an I/O error during the existence check as `BadPath`
carrying the OS error text, each leaving the concrete manager untouched. -/
theorem C4_witness :
    load_plugin sAlpha envClash "relative/path.so"
        = (Except.error
              (LoadingError.BadPath "Path `relative/path.so` is not absolute."),
            sAlpha, []) ∧
      load_plugin sAlpha envAbsent "/abs/missing.so"
        = (Except.error
              (LoadingError.PathNotFound "Path `/abs/missing.so` does not exist."),
            sAlpha, []) ∧
      load_plugin sAlpha envIoErr "/abs/locked.so"
        = (Except.error (LoadingError.BadPath
              ("Could not verify the existence of `/abs/locked.so`, either due to " ++
                "errors or lack of permissions. Os error: permission denied")),
            sAlpha, []) := by
  obtain ⟨h1, _, _⟩ := C4_path_validation sAlpha envClash "relative/path.so"
  obtain ⟨_, h2, _⟩ := C4_path_validation sAlpha envAbsent "/abs/missing.so"
  obtain ⟨_, _, h3⟩ := C4_path_validation sAlpha envIoErr "/abs/locked.so"
  exact ⟨h1 rfl, h2 rfl rfl, h3 "permission denied" rfl rfl⟩

/-- C5: whenever the library file opens successfully, the handle is appended to
the persistent handle collection whatever the later outcomes (constructor-symbol
resolution, constructor call, collision check), so on every failure after the
open — which can only be `ConstructorLoadFailure`, `ConstructorCallFailure` or
`FunctionNameCollision` — the handle remains in the collection while the
function table is left unchanged. -/
theorem C5_library_handle_retained :
    ∀ (s : ComputeFunctionManager) (env : LoadEnv) (p : String) (lib : Library),
      path_is_absolute p = true → env.pathExists = ExistsCheck.found →
      env.openLib = Except.ok lib →
      (load_plugin s env p).2.1.loaded_libraries = s.loaded_libraries ++ [lib] ∧
        ∀ err : LoadingError, (load_plugin s env p).1 = Except.error err →
          (load_plugin s env p).2.1.functions = s.functions ∧
            ((∃ m, err = LoadingError.ConstructorLoadFailure m) ∨
             err = LoadingError.ConstructorCallFailure ∨
             ∃ n, err = LoadingError.FunctionNameCollision n) := by
  intro s env p lib habs hex hopen
  exact ⟨load_plugin_libraries_appended habs hex hopen,
    fun err h => load_plugin_error_after_open habs hex hopen h⟩

/-- C5 witness: in the concrete collision-rejected load of `"alpha"`, the opened
library handle stays in the collection while the function table is unchanged. -/
theorem C5_witness :
    (load_plugin sAlpha envClash "/plugins/alpha.so").2.1.loaded_libraries
        = sAlpha.loaded_libraries ++ [⟨7⟩] ∧
      (load_plugin sAlpha envClash "/plugins/alpha.so").2.1.functions
        = sAlpha.functions := by
  obtain ⟨h1, h2⟩ :=
    C5_library_handle_retained sAlpha envClash "/plugins/alpha.so" ⟨7⟩ rfl rfl rfl
  exact ⟨h1, (h2 (LoadingError.FunctionNameCollision "alpha") rfl).1⟩

/-- C6: dispatch looks the target up in the function table: for an absent target
`push_request` returns `AppError::TargetNotFound` carrying that target and
invokes no handler; for a present target it invokes exactly that instance's
handler and returns the handler's response, mapping a `BadRequestError` into
`AppError::BadRequest`. -/
theorem C6_dispatch_routing :
    ∀ (s : ComputeFunctionManager) (request : ComputeRequest),
      (tableLookup s.functions request.target.name = none →
         push_request s request
           = (Except.error (AppError.TargetNotFound request.target), [])) ∧
      ∀ plugin : ComputeFunction,
        tableLookup s.functions request.target.name = some plugin →
        (push_request s request).2 = [HookEvent.invoked plugin.name] ∧
          (∀ resp : ComputeResponse, plugin.receive_request request = Except.ok resp →
             (push_request s request).1 = Except.ok resp) ∧
          ∀ e : BadRequestError, plugin.receive_request request = Except.error e →
            (push_request s request).1 = Except.error (AppError.BadRequest e) := by
  intro s request
  refine ⟨fun h => push_request_eq_absent s h, ?_⟩
  intro plugin h
  rw [push_request_eq_found s h]
  exact ⟨rfl, fun resp hok => by simp [hok], fun e herr => by simp [herr]⟩

/-- C6 witness: dispatching to the unregistered `"gamma"` returns
`TargetNotFound` with no handler invocation, and dispatching to the registered
`"alpha"` invokes its handler and returns its response. -/
theorem C6_witness :
    push_request sAlpha reqGamma
        = (Except.error (AppError.TargetNotFound reqGamma.target), []) ∧
      (push_request sAlpha reqAlpha).2 = [HookEvent.invoked "alpha"] ∧
      (push_request sAlpha reqAlpha).1 = Except.ok ComputeResponse.ok := by
  obtain ⟨h1, _⟩ := C6_dispatch_routing sAlpha reqGamma
  obtain ⟨_, h2⟩ := C6_dispatch_routing sAlpha reqAlpha
  obtain ⟨ha, hb, _⟩ := h2 alphaFn rfl
  exact ⟨h1 rfl, ha, hb ComputeResponse.ok rfl⟩

/-- C7: for every built-in kind, the first `load_builtin_function` on a fresh
manager returns `true` and inserts the constructed instance under its own name
as the table's only entry for that name, and every call on a manager whose
tracking set already holds the kind returns `false` and changes nothing — so all
subsequent calls with no intervening unload report "not newly loaded" and the
table keeps exactly one entry for that kind's name. -/
theorem C7_builtin_load_idempotent :
    ∀ kind : BuiltinFunction,
      (load_builtin_function ComputeFunctionManager.new kind).1 = Except.ok true ∧
      tableLookup (load_builtin_function ComputeFunctionManager.new kind).2.1.functions
          kind.create.name = some kind.create ∧
      countKey (load_builtin_function ComputeFunctionManager.new kind).2.1.functions
          kind.create.name = 1 ∧
      ((load_builtin_function ComputeFunctionManager.new kind).2.1.builtins.contains kind
          = true) ∧
      ∀ s : ComputeFunctionManager, s.builtins.contains kind = true →
        load_builtin_function s kind = (Except.ok false, s, []) := by
  intro kind
  refine ⟨?_, ?_, ?_, ?_, fun s h => load_builtin_eq_already s h⟩ <;> cases kind <;> rfl

/-- C7 witness: after the first logger load, loading the logger again returns
`false` and leaves the manager exactly as it was. -/
theorem C7_witness :
    load_builtin_function
        (load_builtin_function ComputeFunctionManager.new BuiltinFunction.Logger).2.1
        BuiltinFunction.Logger
      = (Except.ok false,
          (load_builtin_function ComputeFunctionManager.new BuiltinFunction.Logger).2.1,
          []) := by
  exact (C7_builtin_load_idempotent BuiltinFunction.Logger).2.2.2.2 _ rfl

/-- C8: `AppError::as_generic_status_code` is a total, deterministic, pure
function — every variant of the error union, including every `Loading` and
`Unloading` sub-kind, maps to exactly one generic status class, and equal errors
map to equal classes. -/
theorem C8_status_mapping_total_deterministic :
    (∀ e, (AppError.BadInput e).as_generic_status_code
        = GenericStatusCode.BadRequest) ∧
    (∀ e, (AppError.BadRequest e).as_generic_status_code
        = GenericStatusCode.BadRequest) ∧
    (∀ t, (AppError.TargetNotFound t).as_generic_status_code
        = GenericStatusCode.NotFound) ∧
    (∀ m, (AppError.Loading (LoadingError.BadPath m)).as_generic_status_code
        = GenericStatusCode.PreconditionFailed) ∧
    (∀ m, (AppError.Loading (LoadingError.PathNotFound m)).as_generic_status_code
        = GenericStatusCode.NotFound) ∧
    (∀ m, (AppError.Loading (LoadingError.LibraryLoadFailure m)).as_generic_status_code
        = GenericStatusCode.InternalError) ∧
    (∀ m, (AppError.Loading
          (LoadingError.ConstructorLoadFailure m)).as_generic_status_code
        = GenericStatusCode.InternalError) ∧
    ((AppError.Loading LoadingError.ConstructorCallFailure).as_generic_status_code
        = GenericStatusCode.InternalError) ∧
    (∀ n, (AppError.Loading
          (LoadingError.FunctionNameCollision n)).as_generic_status_code
        = GenericStatusCode.Conflict) ∧
    (∀ t, (AppError.Unloading (UnloadingError.TargetNotFound t)).as_generic_status_code
        = GenericStatusCode.NotFound) ∧
    (∀ m, (AppError.Unloading (UnloadingError.UnableToUnload m)).as_generic_status_code
        = GenericStatusCode.InternalError) ∧
    (∀ m, (AppError.Other m).as_generic_status_code
        = GenericStatusCode.InternalError) ∧
    (AppError.None.as_generic_status_code = GenericStatusCode.InternalError) ∧
    ∀ e1 e2 : AppError, e1 = e2 →
      e1.as_generic_status_code = e2.as_generic_status_code := by
  exact ⟨fun e => rfl, fun e => rfl, fun t => rfl, fun m => rfl, fun m => rfl,
    fun m => rfl, fun m => rfl, rfl, fun n => rfl, fun t => rfl, fun m => rfl,
    fun m => rfl, rfl, fun e1 e2 h => h ▸ rfl⟩

/-- C8 witness: the determinism clause applied at a concrete error, and the
concrete class of a concrete `Other` error. -/
theorem C8_witness :
    (AppError.Other "boom").as_generic_status_code
        = (AppError.Other "boom").as_generic_status_code ∧
      (AppError.Other "boom").as_generic_status_code
        = GenericStatusCode.InternalError := by
  obtain ⟨_, _, _, _, _, _, _, _, _, _, _, hother, _, hdet⟩ :=
    C8_status_mapping_total_deterministic
  exact ⟨hdet (AppError.Other "boom") (AppError.Other "boom") rfl, hother "boom"⟩

/-- C9 counterexample: two dispatches to the different, already-loaded targets
`"alpha"` and `"beta"`; after task 0 acquires the function-table mutex and starts
awaiting its handler, task 1 — still at `lock().await` — has no enabled step at
all (`stepTask` is `none`), so it observably blocks on the other dispatch for the
whole handler execution, not merely for a brief read-lock acquisition: the table
lock of `push_request` is an exclusive mutex, not a read lock. -/
theorem C9_counterexample_dispatch_blocks :
    (runSched (initSched "alpha" "beta") [false, false]).map
        (fun s => ((getTask s false).phase, (getTask s true).phase, stepTask s true))
      = some (DispatchPhase.running, DispatchPhase.start, none) ∧
    (("alpha" : String) == "beta") = false := by
  exact ⟨rfl, rfl⟩

/-- C9 (amended): `push_request` guards the whole function table with a single
exclusive mutex held across the handler invocation, so while one dispatch is
mid-handler any other dispatch — even one addressed to a different, already
loaded function — is blocked at lock acquisition until the holder finishes;
both dispatches do complete under the schedule that lets the holder finish and
release the lock. -/
theorem C9_dispatches_serialize_but_complete :
    (∀ (s : DispatchSched) (i j : Bool), s.owner = some i →
        (getTask s j).phase = DispatchPhase.start → stepTask s j = none) ∧
    ∀ t0 t1 : String,
      (runSched (initSched t0 t1) [false, false]).map
          (fun s => ((getTask s false).phase, (getTask s true).phase, stepTask s true))
        = some (DispatchPhase.running, DispatchPhase.start, none) ∧
      (runSched (initSched t0 t1) [false, false, false, true, true, true]).map
          (fun s => ((getTask s false).phase, (getTask s true).phase))
        = some (DispatchPhase.done, DispatchPhase.done) := by
  constructor
  · intro s i j howner hphase
    unfold stepTask
    rw [hphase, howner]
  · intro t0 t1
    exact ⟨rfl, rfl⟩

/-- C9 witness: in the concrete blocked configuration (task 0 holds the mutex
mid-handler), task 1 — dispatching to a different function — cannot step. -/
theorem C9_witness :
    stepTask
        { owner := some false, task0 := ⟨"alpha", DispatchPhase.running⟩,
          task1 := ⟨"beta", DispatchPhase.start⟩ } true
      = none := by
  exact C9_dispatches_serialize_but_complete.1
    { owner := some false, task0 := ⟨"alpha", DispatchPhase.running⟩,
      task1 := ⟨"beta", DispatchPhase.start⟩ } false true rfl rfl

/-- C10: after a built-in kind is loaded and then removed with `unload_plugin`
under its name, a later `load_builtin_function` of the same kind returns `false`
and re-inserts nothing — the tracking set still records the kind while the
function table lacks the entry — so an unloaded built-in cannot be reloaded
through the built-in loader. -/
theorem C10_unloaded_builtin_not_reloadable :
    ∀ kind : BuiltinFunction,
      (load_builtin_function ComputeFunctionManager.new kind).1 = Except.ok true ∧
      (unload_plugin (load_builtin_function ComputeFunctionManager.new kind).2.1
          ⟨kind.create.name⟩).1 = Except.ok () ∧
      load_builtin_function
          (unload_plugin (load_builtin_function ComputeFunctionManager.new kind).2.1
            ⟨kind.create.name⟩).2.1 kind
        = (Except.ok false,
            (unload_plugin (load_builtin_function ComputeFunctionManager.new kind).2.1
              ⟨kind.create.name⟩).2.1,
            []) ∧
      ((unload_plugin (load_builtin_function ComputeFunctionManager.new kind).2.1
            ⟨kind.create.name⟩).2.1.builtins.contains kind = true) ∧
      tableLookup
          (unload_plugin (load_builtin_function ComputeFunctionManager.new kind).2.1
            ⟨kind.create.name⟩).2.1.functions kind.create.name
        = none := by
  intro kind
  cases kind
  exact ⟨rfl, rfl, rfl, rfl, rfl⟩

end LocalCompute
